import Mathlib

/-!
Verification of the state-snapshot-and-diff monitoring engine of the
claude-autonomous-dev repository (the ClaudeAuto class in lib/index.js).
Each JavaScript function relevant to the verified properties is embedded
as a Lean definition translated line by line from the source:

* parseLogLine        — log-line classifier
* calculateReadiness  — readiness scoring
* getCache / setCache — TTL cache with bounded size
* detectStateChanges  — snapshot differ (may throw, hence Option-valued)
* startMonitoring     — monitor-session start guard
* scanProcesses / canStart — process probe and its consumer

Machine integers are modelled as Nat / Int (the JavaScript code only ever
performs exact small-integer arithmetic on them); JavaScript Map and plain
objects are modelled as insertion-ordered association lists with the
set / delete semantics of the runtime; a JavaScript function that can
throw is modelled as Option-valued, none standing for the thrown
exception.
-/

namespace ClaudeAuto

/-- Substring test: true when needle occurs contiguously in hay.
Embeds the JavaScript String.prototype.includes / a case-sensitive
regex substring test. -/
def strHas (hay needle : String) : Bool :=
  hay.data.tails.any (fun t => needle.data.isPrefixOf t)

/-- Case-insensitive keyword test: true when any of the (lower-case)
keywords occurs in the line once the line is lower-cased character by
character.  Embeds a case-insensitive alternation regex such as
/error|failed|exception|fatal|crash/i . -/
def matchAnyCI (line : String) (keywords : List String) : Bool :=
  keywords.any (fun k => strHas (String.mk (line.data.map Char.toLower)) k)

/-- The JavaScript or-with-default idiom a || b on strings:
the empty string is the only falsy string. -/
def jsOr (a b : String) : String :=
  if a = "" then b else a

/-- Keywords of the error branch of parseLogLine. -/
def errorKeywords : List String := ["error", "failed", "exception", "fatal", "crash"]

/-- Keywords of the warning branch of parseLogLine. -/
def warningKeywords : List String := ["warn", "warning", "deprecated"]

/-- Keywords of the success branch of parseLogLine. -/
def successKeywords : List String := ["success", "compiled", "ready", "listening", "started", "built", "complete"]

/-- Does the regex /https?:\/\/[^\s]+/ match at the head of the
character list: the literal scheme, then at least one non-whitespace
character. -/
def isUrlStart (cs : List Char) : Bool :=
  match cs with
  | 'h' :: 't' :: 't' :: 'p' :: 's' :: ':' :: '/' :: '/' :: c :: _ => !c.isWhitespace
  | 'h' :: 't' :: 't' :: 'p' :: ':' :: '/' :: '/' :: c :: _ => !c.isWhitespace
  | _ => false

/-- First match of /https?:\/\/[^\s]+/ in the line, scanning left to
right; the greedy match runs to the first whitespace character. -/
def findUrl : List Char → Option String
  | [] => none
  | c :: rest =>
    if isUrlStart (c :: rest) then
      some (String.mk ((c :: rest).takeWhile (fun ch => !ch.isWhitespace)))
    else findUrl rest

/-- Result object of parseLogLine.  The JavaScript objects of the
different branches carry different field sets; absent fields are
modelled as none. -/
structure LogAnalysis where
  type : String
  message : String
  severity : Option String := none
  url : Option String := none
deriving Repr, DecidableEq

/-- Embeds ClaudeAuto.parseLogLine: classify one log line as
error / warning / success / url / info, first match winning. -/
def parseLogLine (line : String) : LogAnalysis :=
  if matchAnyCI line errorKeywords then
    { type := "error", message := line.trim,
      severity := some (if matchAnyCI line ["fatal", "crash"] then "critical" else "error") }
  else if matchAnyCI line warningKeywords then
    { type := "warning", message := line.trim, severity := some "warning" }
  else if matchAnyCI line successKeywords then
    { type := "success", message := line.trim }
  else
    match findUrl line.data with
    | some u => { type := "url", url := some u, message := line.trim }
    | none => { type := "info", message := line.trim }

/-- Result of the TypeScript sub-probe (checkTypeScript): errors is Int
because the failure path reports the sentinel -1. -/
structure TsStatus where
  errors : Int
  clean : Bool
deriving Repr, DecidableEq

/-- Result of the lint sub-probe (checkLint); the counts are regex match
counts, hence natural numbers. -/
structure LintStatus where
  errors : Nat
  warnings : Nat
  fixable : Bool
deriving Repr, DecidableEq

/-- Result of the build sub-probe (checkBuild); the failure path carries
neither time nor size, hence the Option fields. -/
structure BuildStatus where
  success : Bool
  time : Option Nat := none
  size : Option String := none
deriving Repr, DecidableEq

/-- The quality facet of a snapshot. -/
structure Quality where
  typescript : TsStatus
  lint : LintStatus
  build : BuildStatus
deriving Repr, DecidableEq

/-- Result of getGitStatus.  calculateReadiness receives it but never
reads it. -/
structure GitStatus where
  branch : String
  changedFiles : Nat
  clean : Bool
deriving Repr, DecidableEq

/-- One entry of the process map built by scanProcesses.  The different
branches assign different field sets to the JavaScript object; absent
fields are modelled as none.  pid is parts[1] of the ps line, which is
undefined (none) when the line has fewer than two tokens. -/
structure ProcInfo where
  pid : Option String
  status : String
  port : Option String := none
  type : String
  command : Option String := none
deriving Repr, DecidableEq

/-- One entry of the network map built by checkNetwork. -/
structure NetInfo where
  port : Nat
  status : String
  healthy : Bool
  framework : String
deriving Repr, DecidableEq

/-- The derived readiness record returned by calculateReadiness. -/
structure Readiness where
  score : Nat
  level : String
  issues : List String
  critical : List String
deriving Repr, DecidableEq

/-- Embeds ClaudeAuto.calculateReadiness.  The JavaScript function
accumulates score and issues imperatively; the translation names each
contribution in source order (TypeScript, build, lint, development
environment) and concatenates the issue pushes in the same order. -/
def calculateReadiness (processes : List (String × ProcInfo))
    (network : List (String × NetInfo)) (quality : Quality) (git : GitStatus) :
    Readiness :=
  let tsScore : Nat := if quality.typescript.clean then 40 else 0
  let tsIssues : List String :=
    if quality.typescript.clean then []
    else if quality.typescript.errors > 0 then
      [toString quality.typescript.errors ++ " TypeScript errors"]
    else []
  let buildScore : Nat := if quality.build.success then 30 else 0
  let buildIssues : List String := if quality.build.success then [] else ["Build failing"]
  let lintScore : Nat :=
    if quality.lint.errors = 0 then 20
    else if quality.lint.errors < 10 then 10
    else 0
  let lintIssues : List String :=
    if quality.lint.errors = 0 then []
    else if quality.lint.errors < 10 then
      (if quality.lint.fixable then [toString quality.lint.errors ++ " fixable lint errors"] else [])
    else [toString quality.lint.errors ++ " lint errors"]
  let hasRunningDev : Bool := !processes.isEmpty
  let hasHealthyNetwork : Bool := network.any (fun p => p.2.healthy)
  let devScore : Nat := if hasRunningDev && hasHealthyNetwork then 10 else 0
  let score := tsScore + buildScore + lintScore + devScore
  let issues := tsIssues ++ buildIssues ++ lintIssues
  let level := if score ≥ 90 then "ready" else if score ≥ 70 then "partial" else "not-ready"
  { score := score, level := level, issues := issues,
    critical := issues.filter (fun i => strHas i "TypeScript" || strHas i "Build") }

/-- One value of this.cache: the object stored by setCache.  Times are
millisecond clock readings, modelled as Int. -/
structure CacheEntry (α : Type) where
  data : α
  timestamp : Int
  timeout : Int
deriving Repr, DecidableEq

/-- JavaScript Map.prototype.set on an insertion-ordered association
list: an existing key keeps its position and gets the new value, a new
key is appended at the end. -/
def mapSet {β : Type} (m : List (String × β)) (k : String) (v : β) :
    List (String × β) :=
  if m.any (fun p => p.1 == k) then
    m.map (fun p => if p.1 == k then (k, v) else p)
  else m ++ [(k, v)]

/-- JavaScript Map.prototype.delete (and the delete operator on plain
objects): remove the entry of the key.  Keys are unique in any map the
runtime can build, so filtering every occurrence is the same operation. -/
def mapDelete {β : Type} (m : List (String × β)) (k : String) :
    List (String × β) :=
  m.filter (fun p => p.1 != k)

/-- Embeds ClaudeAuto.getCache.  now is the Date.now() reading of the
access, cacheTimeout the this.cacheTimeout default (5000 in the
constructor).  The JavaScript reads entry.timeout || this.cacheTimeout,
so an entry timeout of 0 (the only falsy number the code can store)
falls back to the default.  Returns the looked-up value and the table
after the lazy purge. -/
def getCache {α : Type} (cache : List (String × CacheEntry α)) (k : String)
    (now cacheTimeout : Int) : Option α × List (String × CacheEntry α) :=
  match List.lookup k cache with
  | some entry =>
    let t := if entry.timeout == 0 then cacheTimeout else entry.timeout
    if now - entry.timestamp < t then (some entry.data, cache)
    else (none, mapDelete cache k)
  | none => (none, cache)

/-- Embeds ClaudeAuto.setCache: write the entry, then if the table has
grown past 10 entries delete the first key in map order (the key first
inserted, as this.cache.keys().next().value yields). -/
def setCache {α : Type} (cache : List (String × CacheEntry α)) (k : String)
    (d : α) (now timeout : Int) : List (String × CacheEntry α) :=
  let c := mapSet cache k ⟨d, now, timeout⟩
  if c.length > 10 then
    match c.head? with
    | some p => mapDelete c p.1
    | none => c
  else c

/-- Well-formedness of a reachable cache table: keys are distinct (a
JavaScript Map cannot hold duplicate keys) and at most 10 entries
survive any setCache (the bounded-size cleanup). -/
def cacheWF {α : Type} (cache : List (String × CacheEntry α)) : Prop :=
  (cache.map Prod.fst).Nodup ∧ cache.length ≤ 10

/-- The environment snapshot assembled by scan().  detectStateChanges
reads only processes, network and readiness and guards each for
presence, hence the Option fields; the remaining facets are carried for
completeness. -/
structure Snapshot where
  timestamp : Int
  processes : Option (List (String × ProcInfo)) := none
  network : Option (List (String × NetInfo)) := none
  quality : Option Quality := none
  git : Option GitStatus := none
  readiness : Option Readiness := none
deriving Repr, DecidableEq

/-- The change objects pushed by detectStateChanges, one constructor per
type tag. -/
inductive StateChange where
  | processCrashed (process : String) (pid : Option String)
  | processStarted (process : String) (pid : Option String)
  | networkDown (endpoint : String) (port : Nat)
  | networkUp (endpoint : String) (port : Nat)
  | readinessChanged (fromLevel toLevel : String) (score : Nat)
deriving Repr, DecidableEq

/-- Object.keys of an association-list map. -/
def keysOf {β : Type} (m : List (String × β)) : List String :=
  m.map Prod.fst

/-- The processes-that-stopped loop of detectStateChanges: one
process:crashed change per key of before absent from after, carrying
the pid looked up in before. -/
def crashedChanges (beforeP afterP : List (String × ProcInfo)) :
    List StateChange :=
  (keysOf beforeP).filterMap (fun n =>
    if (keysOf afterP).contains n then none
    else (List.lookup n beforeP).map (fun info => StateChange.processCrashed n info.pid))

/-- The processes-that-started loop of detectStateChanges. -/
def startedChanges (beforeP afterP : List (String × ProcInfo)) :
    List StateChange :=
  (keysOf afterP).filterMap (fun n =>
    if (keysOf beforeP).contains n then none
    else (List.lookup n afterP).map (fun info => StateChange.processStarted n info.pid))

/-- The network loop of detectStateChanges.  For an endpoint of the
before map that is absent from the after map the JavaScript
dereferences afterStatus.healthy on undefined — in the healthy branch
through !afterStatus.healthy and in the unhealthy branch through the
else-if condition — and throws a TypeError either way; the thrown
exception is modelled as none. -/
def networkChanges (m1 m2 : List (String × NetInfo)) :
    Option (List StateChange) :=
  match m1 with
  | [] => some []
  | (e, bef) :: rest =>
    match List.lookup e m2 with
    | none => none
    | some aft =>
      (networkChanges rest m2).map (fun cs =>
        (if bef.healthy && !aft.healthy then [StateChange.networkDown e aft.port]
         else if !bef.healthy && aft.healthy then [StateChange.networkUp e aft.port]
         else []) ++ cs)

/-- Embeds ClaudeAuto.detectStateChanges.  The change list is built in
source order: crashed processes, started processes, network changes,
readiness change.  A TypeError thrown inside the network loop aborts
the whole call, discarding the changes already pushed, hence the
Option result. -/
def detectStateChanges (before after : Snapshot) : Option (List StateChange) :=
  let beforeP := before.processes.getD []
  let afterP := after.processes.getD []
  let crashed := crashedChanges beforeP afterP
  let started := startedChanges beforeP afterP
  let net : Option (List StateChange) :=
    match before.network, after.network with
    | some m1, some m2 => networkChanges m1 m2
    | _, _ => some []
  let ready : List StateChange :=
    match before.readiness, after.readiness with
    | some r1, some r2 =>
      if r1.level ≠ r2.level then
        [StateChange.readinessChanged r1.level r2.level r2.score]
      else []
    | _, _ => []
  net.map (fun ns => crashed ++ started ++ ns ++ ready)

/-- The monitoring fields of the engine instance, as initialised in the
constructor and mutated by startMonitoring / stopMonitoring.
logWatchers holds the names of the active watcher map. -/
structure EngineState where
  monitoring : Bool
  logWatchers : List String
  processMonitor : Option Int
  lastKnownState : Option Snapshot
deriving Repr, DecidableEq

/-- The options object of startMonitoring with its destructuring
defaults. -/
structure MonitorOptions where
  interval : Int := 5000
  logFiles : List String := ["dev-server", "build", "test", "convex"]
  watchProcesses : Bool := true
  watchNetwork : Bool := true
  autoRestart : Bool := false
deriving Repr, DecidableEq

/-- Embeds ClaudeAuto.startMonitoring as a state transition.  When a
session is already active it throws (returned as the error message)
before touching any field.  Otherwise it starts one log watcher per
configured log file (spawning the tail process is modelled as
succeeding), arms the process-monitor interval when requested
(startNetworkMonitoring is a no-op in the source), and stores the
initial scan result — supplied here as the scanResult argument — as the
baseline. -/
def startMonitoring (s : EngineState) (opts : MonitorOptions)
    (scanResult : Snapshot) : EngineState × Option String :=
  if s.monitoring then (s, some "Monitoring already active")
  else
    ({ monitoring := true,
       logWatchers := opts.logFiles.foldl
         (fun ws n => if ws.contains n then ws else ws ++ [n]) s.logWatchers,
       processMonitor := if opts.watchProcesses then some opts.interval else s.processMonitor,
       lastKnownState := some scanResult }, none)

/-- Splitter of line.split on the whitespace-run regex, with the
JavaScript boundary behaviour: a leading whitespace run yields a
leading empty token and a trailing one a trailing empty token. -/
def splitWsGo (cs : List Char) (acc : List Char) : List String :=
  match cs with
  | [] => [String.mk acc.reverse]
  | c :: rest =>
    if c.isWhitespace then
      String.mk acc.reverse :: splitWsGo (rest.dropWhile Char.isWhitespace) []
    else splitWsGo rest (c :: acc)
termination_by cs.length
decreasing_by
  · exact Nat.lt_succ_of_le (List.IsSuffix.length_le (List.dropWhile_suffix _))
  · exact Nat.lt_succ_self _

/-- line.split on a whitespace-run regex. -/
def splitWsJS (s : String) : List String :=
  splitWsGo s.data []

/-- Character class of the separator part of the port regex. -/
def portSepChar (c : Char) : Bool :=
  c.isWhitespace || c == '=' || c == ':'

/-- One anchored attempt of the port regex continuation: at least one
separator character, then at least one digit, captured. -/
def portAfter (rest : List Char) : Option String :=
  let sep := rest.takeWhile portSepChar
  if sep.isEmpty then none
  else
    let digits := (rest.dropWhile portSepChar).takeWhile Char.isDigit
    if digits.isEmpty then none else some (String.mk digits)

/-- The port regex tried at one start position: the alternation tries
the literals in source order, and a literal whose continuation fails
lets the next alternative (and then the next position) try. -/
def matchPortAt (cs : List Char) : Option String :=
  if ("--port".data).isPrefixOf cs then
    match portAfter (cs.drop 6) with
    | some p => some p
    | none =>
      if ("PORT".data).isPrefixOf cs then portAfter (cs.drop 4) else none
  else if ("port".data).isPrefixOf cs then portAfter (cs.drop 4)
  else if ("PORT".data).isPrefixOf cs then portAfter (cs.drop 4)
  else none

/-- Left-to-right scan of the port regex over the command string. -/
def extractPortScan : List Char → Option String
  | [] => none
  | c :: rest =>
    match matchPortAt (c :: rest) with
    | some p => some p
    | none => extractPortScan rest

/-- Embeds ClaudeAuto.extractPort: explicit port argument first, then
the per-framework default table, else the string unknown. -/
def extractPort (command : String) : String :=
  match extractPortScan command.data with
  | some p => p
  | none =>
    if strHas command "astro" then "4321"
    else if strHas command "vite" then "5173"
    else if strHas command "next" then "3000"
    else if strHas command "react" && !(strHas command "next") then "3000"
    else if strHas command "convex" then "3210"
    else if strHas command "nuxt" then "3000"
    else if strHas command "svelte" then "5173"
    else if strHas command "vue" then "8080"
    else "unknown"

/-- The per-line classification cascade of scanProcesses: split the ps
line on whitespace, take parts[1] as pid and the join of parts.slice(10)
as the command, then assign the first matching role.  Property
assignment on the processes object is mapSet. -/
def classifyProcessLine (procs : List (String × ProcInfo)) (line : String) :
    List (String × ProcInfo) :=
  let parts := splitWsJS line
  let pid := parts.get? 1
  let command := String.intercalate " " (parts.drop 10)
  if strHas command "turbo" && strHas command "dev" then
    mapSet procs "turbo"
      { pid := pid, status := "running", type := "monorepo-dev", command := some command.trim }
  else if strHas command "astro" && strHas command "dev" then
    mapSet procs "astro"
      { pid := pid, status := "running", port := some (jsOr (extractPort command) "4321"), type := "astro-dev" }
  else if strHas command "vite" || (strHas command "npm" && strHas command "dev" && !(strHas command "next")) then
    mapSet procs "vite"
      { pid := pid, status := "running", port := some (jsOr (extractPort command) "5173"), type := "vite-dev" }
  else if strHas command "next" || (strHas command "npm" && strHas command "dev" && strHas command "next") then
    mapSet procs "next"
      { pid := pid, status := "running", port := some "3000", type := "next-dev" }
  else if strHas command "convex" then
    mapSet procs "convex"
      { pid := pid, status := "running", port := some "3210",
        type := if strHas command "convex dev" then "local" else "cloud" }
  else if strHas command "dev" && (strHas command "npm" || strHas command "yarn" || strHas command "pnpm") then
    mapSet procs "dev"
      { pid := pid, status := "running", port := some (jsOr (extractPort command) "unknown"), type := "generic-dev" }
  else procs

/-- Embeds ClaudeAuto.scanProcesses.  execResult is the stdout of the
ps-pipeline; none is the catch branch — the command failing (including
grep finding nothing, which exits non-zero) — which returns the empty
map. -/
def scanProcesses (execResult : Option String) : List (String × ProcInfo) :=
  match execResult with
  | none => []
  | some stdout =>
    let lines := (stdout.trim.splitOn "\n").filter (fun l => l.length > 0)
    lines.foldl classifyProcessLine []

/-- Embeds ClaudeAuto.canStart: Object.keys(processes).length === 0 on
the scanProcesses result. -/
def canStart (execResult : Option String) : Bool :=
  (keysOf (scanProcesses execResult)).length == 0

/-- A concrete full cache table of 10 distinct keys, for evaluating the
bounded-size and eviction behaviour. -/
def cacheExample : List (String × CacheEntry Nat) :=
  [("k0", ⟨0, 0, 5⟩), ("k1", ⟨1, 0, 5⟩), ("k2", ⟨2, 0, 5⟩), ("k3", ⟨3, 0, 5⟩),
   ("k4", ⟨4, 0, 5⟩), ("k5", ⟨5, 0, 5⟩), ("k6", ⟨6, 0, 5⟩), ("k7", ⟨7, 0, 5⟩),
   ("k8", ⟨8, 0, 5⟩), ("k9", ⟨9, 0, 5⟩)]

/-! Theorems.  Shared helper lemmas come first, then one theorem per
claim (with its witness or counterexample). -/

/-- A fatal or crash keyword match is in particular an error keyword
match: the two keywords are members of the error alternation. -/
theorem matchAnyCI_fatal_sub (line : String)
    (h : matchAnyCI line ["fatal", "crash"] = true) :
    matchAnyCI line errorKeywords = true := by
  simp only [matchAnyCI, errorKeywords, List.any_eq_true] at h ⊢
  rcases h with ⟨k, hk, hs⟩
  refine ⟨k, ?_, hs⟩
  simp only [List.mem_cons, List.not_mem_nil, or_false] at hk
  rcases hk with rfl | rfl <;> simp

/-- C2: the line classifier is total — every line gets exactly one of
the five categories — with precedence error over warning over success
over url over info; a line containing an error keyword is classified
error whatever else it contains, and the severity is critical exactly
when the line matches fatal or crash. -/
theorem parseLogLine_spec (line : String) :
    ((parseLogLine line).type = "error" ∨ (parseLogLine line).type = "warning" ∨
      (parseLogLine line).type = "success" ∨ (parseLogLine line).type = "url" ∨
      (parseLogLine line).type = "info") ∧
    (matchAnyCI line errorKeywords = true → (parseLogLine line).type = "error") ∧
    (matchAnyCI line errorKeywords = false → matchAnyCI line warningKeywords = true →
      (parseLogLine line).type = "warning") ∧
    (matchAnyCI line errorKeywords = false → matchAnyCI line warningKeywords = false →
      matchAnyCI line successKeywords = true → (parseLogLine line).type = "success") ∧
    (matchAnyCI line errorKeywords = false → matchAnyCI line warningKeywords = false →
      matchAnyCI line successKeywords = false →
      (parseLogLine line).type = (if (findUrl line.data).isSome then "url" else "info")) ∧
    ((parseLogLine line).severity = some "critical" ↔
      matchAnyCI line ["fatal", "crash"] = true) := by
  cases he : matchAnyCI line errorKeywords with
  | true =>
    have ht : (parseLogLine line).type = "error" := by
      simp [parseLogLine, he]
    have hsev : (parseLogLine line).severity =
        some (if matchAnyCI line ["fatal", "crash"] then "critical" else "error") := by
      simp [parseLogLine, he]
    refine ⟨Or.inl ht, fun _ => ht, ?_, ?_, ?_, ?_⟩
    · intro h; simp at h
    · intro h; simp at h
    · intro h; simp at h
    · rw [hsev]
      cases hfc : matchAnyCI line ["fatal", "crash"] with
      | true => simp
      | false => decide
  | false =>
    have hf : matchAnyCI line ["fatal", "crash"] = false := by
      cases hfc : matchAnyCI line ["fatal", "crash"] with
      | false => rfl
      | true => simp [matchAnyCI_fatal_sub line hfc] at he
    cases hw : matchAnyCI line warningKeywords with
    | true =>
      have ht : (parseLogLine line).type = "warning" := by
        simp [parseLogLine, he, hw]
      have hsev : (parseLogLine line).severity = some "warning" := by
        simp [parseLogLine, he, hw]
      refine ⟨Or.inr (Or.inl ht), ?_, fun _ _ => ht, ?_, ?_, ?_⟩
      · intro h; simp at h
      · intro _ h _; simp at h
      · intro _ h _; simp at h
      · rw [hsev, hf]; decide
    | false =>
      cases hs : matchAnyCI line successKeywords with
      | true =>
        have ht : (parseLogLine line).type = "success" := by
          simp [parseLogLine, he, hw, hs]
        have hsev : (parseLogLine line).severity = none := by
          simp [parseLogLine, he, hw, hs]
        refine ⟨Or.inr (Or.inr (Or.inl ht)), ?_, ?_, fun _ _ _ => ht, ?_, ?_⟩
        · intro h; simp at h
        · intro _ h; simp at h
        · intro _ _ h; simp at h
        · rw [hsev, hf]; decide
      | false =>
        cases hu : findUrl line.data with
        | some u =>
          have ht : (parseLogLine line).type = "url" := by
            simp [parseLogLine, he, hw, hs, hu]
          have hsev : (parseLogLine line).severity = none := by
            simp [parseLogLine, he, hw, hs, hu]
          refine ⟨Or.inr (Or.inr (Or.inr (Or.inl ht))), ?_, ?_, ?_, ?_, ?_⟩
          · intro h; simp at h
          · intro _ h; simp at h
          · intro _ _ h; simp at h
          · intro _ _ _; simp [ht]
          · rw [hsev, hf]; decide
        | none =>
          have ht : (parseLogLine line).type = "info" := by
            simp [parseLogLine, he, hw, hs, hu]
          have hsev : (parseLogLine line).severity = none := by
            simp [parseLogLine, he, hw, hs, hu]
          refine ⟨Or.inr (Or.inr (Or.inr (Or.inr ht))), ?_, ?_, ?_, ?_, ?_⟩
          · intro h; simp at h
          · intro _ h; simp at h
          · intro _ _ h; simp at h
          · intro _ _ _; simp [ht]
          · rw [hsev, hf]; decide

/-- C2 witness: one concrete line per discharged branch of the
precedence law, and a critical severity instance. -/
theorem parseLogLine_spec_witness :
    (parseLogLine "Build failed").type = "error" ∧
    (parseLogLine "deprecated API").type = "warning" ∧
    (parseLogLine "compiled in 2s").type = "success" ∧
    (parseLogLine "FATAL crash").severity = some "critical" :=
  ⟨(parseLogLine_spec "Build failed").2.1 (by decide),
   (parseLogLine_spec "deprecated API").2.2.1 (by decide) (by decide),
   (parseLogLine_spec "compiled in 2s").2.2.2.1 (by decide) (by decide) (by decide),
   (parseLogLine_spec "FATAL crash").2.2.2.2.2.mpr (by decide)⟩

/-- The score of calculateReadiness, written as the sum of its four
independent contributions. -/
theorem calculateReadiness_score (p : List (String × ProcInfo))
    (n : List (String × NetInfo)) (q : Quality) (g : GitStatus) :
    (calculateReadiness p n q g).score =
      (if q.typescript.clean then 40 else 0) +
      (if q.build.success then 30 else 0) +
      (if q.lint.errors = 0 then 20 else if q.lint.errors < 10 then 10 else 0) +
      (if !p.isEmpty && n.any (fun x => x.2.healthy) then 10 else 0) := rfl

/-- C1: with a clean type-check, successful build, zero lint errors, at
least one running process and at least one healthy endpoint, the
readiness is score 100 (40+30+20+10), level ready, no issues. -/
theorem calculateReadiness_allGreen (processes : List (String × ProcInfo))
    (network : List (String × NetInfo)) (quality : Quality) (git : GitStatus)
    (hts : quality.typescript.clean = true) (hb : quality.build.success = true)
    (hl : quality.lint.errors = 0) (hp : processes ≠ [])
    (hn : network.any (fun p => p.2.healthy) = true) :
    calculateReadiness processes network quality git =
      { score := 100, level := "ready", issues := [], critical := [] } := by
  have hpe : processes.isEmpty = false := by
    cases processes with
    | nil => exact absurd rfl hp
    | cons a t => rfl
  simp [calculateReadiness, hts, hb, hl, hn, hpe]

/-- C1 witness: the spec scenario — type-check clean, build success
(1.2M, 850 ms), lint 0 errors and 2 warnings, one running process, one
healthy endpoint. -/
theorem calculateReadiness_allGreen_witness :
    calculateReadiness
      [("vite", { pid := some "123", status := "running", port := some "5173", type := "vite-dev" })]
      [("vite", { port := 5173, status := "200", healthy := true, framework := "vite" })]
      { typescript := { errors := 0, clean := true },
        lint := { errors := 0, warnings := 2, fixable := false },
        build := { success := true, time := some 850, size := some "1.2M" } }
      { branch := "main", changedFiles := 0, clean := true } =
      { score := 100, level := "ready", issues := [], critical := [] } :=
  calculateReadiness_allGreen _ _ _ _ rfl rfl rfl (by decide) rfl

/-- C8: the readiness score never decreases when one input factor
improves with the others held equal — type-check turning clean, the
build turning successful, the lint-error count decreasing, or a running
process together with a healthy endpoint appearing. -/
theorem calculateReadiness_monotone :
    (∀ (p : List (String × ProcInfo)) (n : List (String × NetInfo)) (g : GitStatus)
        (e : Int) (l : LintStatus) (b : BuildStatus),
      (calculateReadiness p n ⟨⟨e, false⟩, l, b⟩ g).score ≤
        (calculateReadiness p n ⟨⟨e, true⟩, l, b⟩ g).score) ∧
    (∀ (p : List (String × ProcInfo)) (n : List (String × NetInfo)) (g : GitStatus)
        (ts : TsStatus) (l : LintStatus) (t : Option Nat) (sz : Option String),
      (calculateReadiness p n ⟨ts, l, ⟨false, t, sz⟩⟩ g).score ≤
        (calculateReadiness p n ⟨ts, l, ⟨true, t, sz⟩⟩ g).score) ∧
    (∀ (p : List (String × ProcInfo)) (n : List (String × NetInfo)) (g : GitStatus)
        (ts : TsStatus) (b : BuildStatus) (w : Nat) (fx : Bool) (e1 e2 : Nat),
      e1 ≤ e2 →
      (calculateReadiness p n ⟨ts, ⟨e2, w, fx⟩, b⟩ g).score ≤
        (calculateReadiness p n ⟨ts, ⟨e1, w, fx⟩, b⟩ g).score) ∧
    (∀ (p p2 : List (String × ProcInfo)) (n n2 : List (String × NetInfo))
        (q : Quality) (g : GitStatus),
      p2 ≠ [] → n2.any (fun x => x.2.healthy) = true →
      (calculateReadiness p n q g).score ≤ (calculateReadiness p2 n2 q g).score) := by
  refine ⟨?_, ?_, ?_, ?_⟩
  · intro p n g e l b
    rw [calculateReadiness_score, calculateReadiness_score]
    dsimp only
    split_ifs <;> first | contradiction | omega
  · intro p n g ts l t sz
    rw [calculateReadiness_score, calculateReadiness_score]
    dsimp only
    split_ifs <;> first | contradiction | omega
  · intro p n g ts b w fx e1 e2 h
    rw [calculateReadiness_score, calculateReadiness_score]
    dsimp only
    split_ifs <;> first | contradiction | omega
  · intro p p2 n n2 q g hp hn
    have h2 : p2.isEmpty = false := by
      cases p2 with
      | nil => exact absurd rfl hp
      | cons a t => rfl
    rw [calculateReadiness_score, calculateReadiness_score, h2, hn]
    split_ifs <;> first | contradiction | omega

/-- C8 witness: a lint-error decrease from 15 to 5, and a running
process with a healthy endpoint appearing, at concrete inputs. -/
theorem calculateReadiness_monotone_witness :
    ((calculateReadiness [] []
        { typescript := { errors := 0, clean := true },
          lint := { errors := 15, warnings := 0, fixable := false },
          build := { success := true } }
        { branch := "main", changedFiles := 0, clean := true }).score ≤
      (calculateReadiness [] []
        { typescript := { errors := 0, clean := true },
          lint := { errors := 5, warnings := 0, fixable := false },
          build := { success := true } }
        { branch := "main", changedFiles := 0, clean := true }).score) ∧
    ((calculateReadiness [] []
        { typescript := { errors := 0, clean := true },
          lint := { errors := 0, warnings := 0, fixable := false },
          build := { success := true } }
        { branch := "main", changedFiles := 0, clean := true }).score ≤
      (calculateReadiness
        [("vite", { pid := some "1", status := "running", type := "vite-dev" })]
        [("vite", { port := 5173, status := "200", healthy := true, framework := "vite" })]
        { typescript := { errors := 0, clean := true },
          lint := { errors := 0, warnings := 0, fixable := false },
          build := { success := true } }
        { branch := "main", changedFiles := 0, clean := true }).score) :=
  ⟨calculateReadiness_monotone.2.2.1 [] [] _ _ _ 0 false 5 15 (by decide),
   calculateReadiness_monotone.2.2.2 [] _ [] _ _ _ (by decide) rfl⟩

/-- A map with no entry bearing key k looks k up to none. -/
theorem lookup_eq_none_of_any_false {β : Type} (m : List (String × β)) (k : String)
    (h : m.any (fun p => p.1 == k) = false) : List.lookup k m = none := by
  rw [List.lookup_eq_none_iff]
  intro p hp
  have h2 : (p.1 == k) = false := by
    cases hc : (p.1 == k) with
    | false => rfl
    | true =>
      have ha : m.any (fun q => q.1 == k) = true := List.any_eq_true.mpr ⟨p, hp, hc⟩
      rw [ha] at h
      exact Bool.noConfusion h
  have h3 : p.1 ≠ k := by simpa using h2
  simp only [bne_iff_ne, Ne]
  exact fun hx => h3 hx.symm

/-- A key absent from the any-test is absent from the key list. -/
theorem not_mem_keys_of_any_false {β : Type} (m : List (String × β)) (k : String)
    (h : m.any (fun p => p.1 == k) = false) : k ∉ keysOf m := by
  intro hk
  rw [keysOf, List.mem_map] at hk
  obtain ⟨p, hp, hpk⟩ := hk
  have ha : m.any (fun q => q.1 == k) = true :=
    List.any_eq_true.mpr ⟨p, hp, by simp [hpk]⟩
  rw [ha] at h
  exact Bool.noConfusion h

/-- Replacing the value of an existing key in place makes the key look
up to the new value. -/
theorem lookup_replace {β : Type} (m : List (String × β)) (k : String) (v : β)
    (h : m.any (fun p => p.1 == k) = true) :
    List.lookup k (m.map (fun p => if p.1 == k then (k, v) else p)) = some v := by
  induction m with
  | nil => simp at h
  | cons p t ih =>
    obtain ⟨pk, pv⟩ := p
    simp only [List.map_cons]
    by_cases hk : pk = k
    · have hb : ((pk, pv).1 == k) = true := by simp [hk]
      rw [if_pos hb]
      exact List.lookup_cons_self
    · have h2 : t.any (fun q => q.1 == k) = true := by
        simp only [List.any_cons, Bool.or_eq_true] at h
        rcases h with h1 | h1
        · exact absurd (by simpa using h1) hk
        · exact h1
      have hbk : ¬((pk, pv).1 == k) = true := by simp [hk]
      rw [if_neg hbk]
      have hkb : (k == pk) = false := by
        cases hc : (k == pk) with
        | false => rfl
        | true => exact absurd (beq_iff_eq.mp hc) (fun hx => hk hx.symm)
      simp only [List.lookup_cons, hkb]
      exact ih h2

/-- mapDelete removes every occurrence of the key. -/
theorem not_mem_keys_mapDelete {β : Type} (m : List (String × β)) (k : String) :
    k ∉ keysOf (mapDelete m k) := by
  intro hk
  rw [keysOf, List.mem_map] at hk
  obtain ⟨p, hp, hpk⟩ := hk
  rw [mapDelete, List.mem_filter] at hp
  have := hp.2
  simp [bne_iff_ne, hpk] at this

/-- The key list of a mapSet: unchanged for an existing key, the key
appended for a new one. -/
theorem keysOf_mapSet {β : Type} (m : List (String × β)) (k : String) (v : β) :
    keysOf (mapSet m k v) =
      if m.any (fun p => p.1 == k) then keysOf m else keysOf m ++ [k] := by
  unfold mapSet keysOf
  split_ifs with h
  · rw [List.map_map]
    apply List.map_congr_left
    intro p _
    by_cases hk : p.1 = k
    · simp [Function.comp, hk]
    · simp [Function.comp, hk]
  · simp

/-- setCache never grows the table past 10 entries. -/
theorem setCache_length_le {α : Type} (c : List (String × CacheEntry α))
    (k : String) (d : α) (now t : Int) (hc : c.length ≤ 10) :
    (setCache c k d now t).length ≤ 10 := by
  unfold setCache
  by_cases h : c.any (fun p => p.1 == k) = true
  · have hlen : (mapSet c k ⟨d, now, t⟩).length = c.length := by
      simp [mapSet, h]
    rw [if_neg (by omega)]
    omega
  · have hm : mapSet c k ⟨d, now, t⟩ = c ++ [(k, ⟨d, now, t⟩)] := by
      simp only [mapSet, Bool.not_eq_true] at h ⊢
      rw [if_neg (by simp [h])]
    rw [hm]
    by_cases h10 : (c ++ [(k, (⟨d, now, t⟩ : CacheEntry α))]).length > 10
    · rw [if_pos h10]
      cases c with
      | nil => simp at h10
      | cons p rest =>
        simp only [List.cons_append, List.head?_cons]
        calc (mapDelete (p :: (rest ++ [(k, ⟨d, now, t⟩)])) p.1).length
            ≤ (rest ++ [(k, (⟨d, now, t⟩ : CacheEntry α))]).length := by
              rw [mapDelete, List.filter_cons]
              simp only [bne_self_eq_false, if_neg]
              · exact List.length_filter_le _ _
          _ ≤ 10 := by
              simp only [List.length_append, List.length_cons, List.length_nil]
              simp only [List.length_cons] at hc
              omega
    · rw [if_neg h10]
      omega

/-- setCache on a full table of 10 distinct keys, with a fresh key,
drops exactly the head entry — the key first inserted — and appends the
new one. -/
theorem setCache_full_eq {α : Type} (c : List (String × CacheEntry α))
    (k : String) (d : α) (now t : Int)
    (hnd : (c.map Prod.fst).Nodup) (hlen : c.length = 10)
    (hk : k ∉ c.map Prod.fst) :
    setCache c k d now t = c.tail ++ [(k, ⟨d, now, t⟩)] := by
  have hany : c.any (fun p => p.1 == k) = false := by
    cases hany : c.any (fun p => p.1 == k) with
    | false => rfl
    | true =>
      rw [List.any_eq_true] at hany
      obtain ⟨p, hp, hpk⟩ := hany
      exact absurd (List.mem_map.mpr ⟨p, hp, by simpa using hpk⟩) hk
  have hm : mapSet c k ⟨d, now, t⟩ = c ++ [(k, ⟨d, now, t⟩)] := by
    simp only [mapSet, Bool.not_eq_true] at hany ⊢
    rw [if_neg (by simp [hany])]
  unfold setCache
  rw [hm]
  cases c with
  | nil => simp at hlen
  | cons p rest =>
    have h10 : (p :: rest ++ [(k, (⟨d, now, t⟩ : CacheEntry α))]).length > 10 := by
      simp only [List.length_append, List.length_cons, List.length_nil]
      simp only [List.length_cons] at hlen
      omega
    rw [if_pos h10]
    simp only [List.cons_append, List.head?_cons]
    rw [mapDelete, List.filter_cons]
    simp only [bne_self_eq_false, if_neg]
    rw [List.filter_append]
    have hrest : rest.filter (fun q => q.1 != p.1) = rest := by
      apply List.filter_eq_self.mpr
      intro q hq
      have hne : q.1 ≠ p.1 := by
        simp only [List.map_cons, List.nodup_cons] at hnd
        intro hcon
        exact hnd.1 (hcon ▸ List.mem_map.mpr ⟨q, hq, rfl⟩)
      simp [bne_iff_ne, hne]
    have hnew : [(k, (⟨d, now, t⟩ : CacheEntry α))].filter (fun q => q.1 != p.1) =
        [(k, ⟨d, now, t⟩)] := by
      have hne : k ≠ p.1 := by
        intro hcon
        exact hk (hcon ▸ List.mem_map.mpr ⟨p, List.mem_cons_self p rest, rfl⟩)
      simp [List.filter_cons, bne_iff_ne, hne]
    rw [hrest, hnew]
    rfl

/-- Looking up the key just written by setCache yields the fresh entry,
on any well-formed table. -/
theorem lookup_setCache {α : Type} (c : List (String × CacheEntry α))
    (k : String) (d : α) (now t : Int) (hWF : cacheWF c) :
    List.lookup k (setCache c k d now t) = some ⟨d, now, t⟩ := by
  obtain ⟨hnd, hlen⟩ := hWF
  by_cases h : c.any (fun p => p.1 == k) = true
  · unfold setCache
    have hlen2 : (mapSet c k ⟨d, now, t⟩).length = c.length := by
      simp [mapSet, h]
    rw [if_neg (by omega)]
    simp only [mapSet, h, if_true]
    exact lookup_replace c k _ h
  · rw [Bool.not_eq_true] at h
    have hkm : k ∉ c.map Prod.fst := not_mem_keys_of_any_false c k h
    have hm : mapSet c k ⟨d, now, t⟩ = c ++ [(k, ⟨d, now, t⟩)] := by
      simp only [mapSet]
      rw [if_neg (by simp [h])]
    by_cases h10 : c.length = 10
    · rw [setCache_full_eq c k d now t hnd h10 hkm]
      have htail : List.lookup k c.tail = none := by
        apply lookup_eq_none_of_any_false
        cases hany : c.tail.any (fun p => p.1 == k) with
        | false => rfl
        | true =>
          rw [List.any_eq_true] at hany
          obtain ⟨p, hp, hpk⟩ := hany
          exact absurd
            (List.mem_map.mpr ⟨p, List.mem_of_mem_tail hp, by simpa using hpk⟩) hkm
      rw [List.lookup_append, htail]
      simp [List.lookup]
    · unfold setCache
      rw [hm]
      have hlk : List.lookup k c = none := lookup_eq_none_of_any_false c k h
      rw [if_neg (by simp only [List.length_append, List.length_cons, List.length_nil]; omega)]
      rw [List.lookup_append, hlk]
      simp [List.lookup]

/-- C4: after any set the cache holds at most 10 entries, and a set of
a fresh key into a full table of 10 distinct keys evicts exactly the
earliest-inserted entry (FIFO) and writes the new one at the end. -/
theorem setCache_bounded_fifo {α : Type} (c : List (String × CacheEntry α))
    (k : String) (d : α) (now t : Int) :
    (c.length ≤ 10 → (setCache c k d now t).length ≤ 10) ∧
    ((c.map Prod.fst).Nodup → c.length = 10 → k ∉ c.map Prod.fst →
      setCache c k d now t = c.tail ++ [(k, ⟨d, now, t⟩)]) :=
  ⟨setCache_length_le c k d now t,
   fun hnd hlen hk => setCache_full_eq c k d now t hnd hlen hk⟩

/-- C4 witness: setting a fresh key into the concrete full table keeps
the bound and evicts exactly the earliest-inserted entry k0. -/
theorem setCache_bounded_fifo_witness :
    (setCache cacheExample "env_scan" 42 100 5000).length ≤ 10 ∧
    setCache cacheExample "env_scan" 42 100 5000 =
      cacheExample.tail ++ [("env_scan", ⟨42, 100, 5000⟩)] :=
  ⟨(setCache_bounded_fifo cacheExample "env_scan" 42 100 5000).1 (by decide),
   (setCache_bounded_fifo cacheExample "env_scan" 42 100 5000).2
     (by decide) (by decide) (by decide)⟩

/-- Well-formedness (distinct keys, at most 10 entries) is an invariant
of setCache, so the hypotheses of the cache theorems hold on every
reachable table. -/
theorem cacheWF_setCache {α : Type} (c : List (String × CacheEntry α))
    (k : String) (d : α) (now t : Int) (h : cacheWF c) :
    cacheWF (setCache c k d now t) := by
  obtain ⟨hnd, hlen⟩ := h
  refine ⟨?_, setCache_length_le c k d now t hlen⟩
  have hnd2 : (keysOf (mapSet c k ⟨d, now, t⟩)).Nodup := by
    rw [keysOf_mapSet]
    split_ifs with hany
    · exact hnd
    · rw [Bool.not_eq_true] at hany
      rw [List.nodup_append]
      exact ⟨hnd, List.nodup_singleton k,
        fun a ha hb => by
          rw [List.mem_singleton] at hb
          exact not_mem_keys_of_any_false c k hany (hb ▸ ha)⟩
  simp only [setCache]
  split_ifs with h10
  · cases hh : (mapSet c k ⟨d, now, t⟩).head? with
    | none => exact hnd2
    | some p =>
      have hsub : keysOf (mapDelete (mapSet c k ⟨d, now, t⟩) p.1) |>.Sublist
          (keysOf (mapSet c k ⟨d, now, t⟩)) :=
        List.Sublist.map Prod.fst (List.filter_sublist _)
      exact hnd2.sublist hsub
  · exact hnd2

/-- Well-formedness is likewise preserved by the lazy purge of
getCache. -/
theorem cacheWF_getCache {α : Type} (c : List (String × CacheEntry α))
    (k : String) (now defT : Int) (h : cacheWF c) :
    cacheWF (getCache c k now defT).2 := by
  obtain ⟨hnd, hlen⟩ := h
  unfold getCache
  cases List.lookup k c with
  | none => exact ⟨hnd, hlen⟩
  | some entry =>
    dsimp only
    split_ifs <;>
      first
        | exact ⟨hnd, hlen⟩
        | exact ⟨hnd.sublist (List.Sublist.map Prod.fst (List.filter_sublist _)),
            le_trans (List.length_filter_le _ _) hlen⟩

/-- C3: on a well-formed table, for any key, value and positive ttl, a
get within the ttl window after the set returns the value; a get at or
after expiry returns absent and purges the entry from the table. -/
theorem getCache_ttl {α : Type} (c : List (String × CacheEntry α)) (k : String)
    (v : α) (ttl now t defT : Int) (hWF : cacheWF c) (httl : 0 < ttl) :
    (t - now < ttl → (getCache (setCache c k v now ttl) k t defT).1 = some v) ∧
    (now + ttl ≤ t →
      (getCache (setCache c k v now ttl) k t defT).1 = none ∧
        k ∉ keysOf (getCache (setCache c k v now ttl) k t defT).2) := by
  have hl := lookup_setCache c k v now ttl hWF
  have hbz : (ttl == 0) = false := by
    cases hc : (ttl == 0) with
    | false => rfl
    | true =>
      have h0 : ttl = 0 := beq_iff_eq.mp hc
      omega
  constructor
  · intro hfresh
    simp only [getCache, hl, hbz, Bool.false_eq_true, if_false]
    rw [if_pos hfresh]
  · intro hexp
    have hnf : ¬(t - now < ttl) := by omega
    simp only [getCache, hl, hbz, Bool.false_eq_true, if_false]
    rw [if_neg hnf]
    exact ⟨rfl, not_mem_keys_mapDelete _ k⟩

/-- C3 witness: a 5000 ms entry written at time 0 is served at 1000 and
absent at 6000. -/
theorem getCache_ttl_witness :
    (getCache (setCache ([] : List (String × CacheEntry Nat)) "env_scan" 42 0 5000)
        "env_scan" 1000 5000).1 = some 42 ∧
    (getCache (setCache ([] : List (String × CacheEntry Nat)) "env_scan" 42 0 5000)
        "env_scan" 6000 5000).1 = none :=
  ⟨(getCache_ttl [] "env_scan" 42 5000 0 1000 5000 ⟨List.nodup_nil, by decide⟩
      (by decide)).1 (by decide),
   ((getCache_ttl [] "env_scan" 42 5000 0 6000 5000 ⟨List.nodup_nil, by decide⟩
      (by decide)).2 (by decide)).1⟩

/-- Membership gives a true contains test on string lists. -/
theorem contains_true_of_mem (l : List String) (n : String) (h : n ∈ l) :
    l.contains n = true := by
  simp [List.contains, List.elem_eq_mem, h]

/-- Non-membership gives a false contains test on string lists. -/
theorem contains_false_of_not_mem (l : List String) (n : String) (h : n ∉ l) :
    l.contains n = false := by
  simp [List.contains, List.elem_eq_mem, h]

/-- A key outside the key list looks up to none. -/
theorem lookup_eq_none_of_not_mem_keys {β : Type} (m : List (String × β))
    (k : String) (h : k ∉ keysOf m) : List.lookup k m = none := by
  apply lookup_eq_none_of_any_false
  cases ha : m.any (fun p => p.1 == k) with
  | false => rfl
  | true =>
    rw [List.any_eq_true] at ha
    obtain ⟨p, hp, hpk⟩ := ha
    exact absurd (List.mem_map.mpr ⟨p, hp, beq_iff_eq.mp hpk⟩) h

/-- On a map with distinct keys, every entry is found by looking up its
own key. -/
theorem lookup_self_of_nodup {β : Type} (m : List (String × β)) (e : String)
    (b : β) (hnd : (keysOf m).Nodup) (hm : (e, b) ∈ m) :
    List.lookup e m = some b := by
  induction m with
  | nil => cases hm
  | cons p t ih =>
    obtain ⟨pk, pv⟩ := p
    simp only [keysOf, List.map_cons, List.nodup_cons] at hnd
    rcases List.mem_cons.mp hm with heq | hmem
    · have h1 : e = pk := congrArg Prod.fst heq
      have h2 : b = pv := congrArg Prod.snd heq
      subst h1
      subst h2
      exact List.lookup_cons_self
    · have he : e ∈ List.map Prod.fst t := List.mem_map.mpr ⟨(e, b), hmem, rfl⟩
      have hne : e ≠ pk := fun hx => hnd.1 (hx ▸ he)
      have hb : (e == pk) = false := by
        cases hc : (e == pk) with
        | false => rfl
        | true => exact absurd (beq_iff_eq.mp hc) hne
      simp only [List.lookup_cons, hb]
      exact ih (by simpa [keysOf] using hnd.2) hmem

/-- The network loop emits nothing when each compared entry is looked up
to itself. -/
theorem networkChanges_self (m1 m2 : List (String × NetInfo))
    (h : ∀ p ∈ m1, List.lookup p.1 m2 = some p.2) :
    networkChanges m1 m2 = some [] := by
  induction m1 with
  | nil => rfl
  | cons p t ih =>
    obtain ⟨e, bef⟩ := p
    have hp := h (e, bef) (List.mem_cons_self _ _)
    have ht := ih (fun q hq => h q (List.mem_cons_of_mem _ hq))
    simp only [networkChanges] at hp ht ⊢
    rw [hp, ht]
    simp

/-- The network loop throws — returns none — as soon as some endpoint of
the before map is missing from the after map. -/
theorem networkChanges_missing (m1 m2 : List (String × NetInfo)) (e : String)
    (he : e ∈ keysOf m1) (hn : List.lookup e m2 = none) :
    networkChanges m1 m2 = none := by
  induction m1 with
  | nil => simp [keysOf] at he
  | cons p t ih =>
    obtain ⟨pk, bef⟩ := p
    by_cases hpk : List.lookup pk m2 = none
    · simp [networkChanges, hpk]
    · obtain ⟨a, ha⟩ := Option.ne_none_iff_exists'.mp hpk
      have hept : e ∈ keysOf t := by
        have he2 : e ∈ pk :: keysOf t := he
        rcases List.mem_cons.mp he2 with h1 | h1
        · rw [h1] at hn
          exact absurd hn hpk
        · exact h1
      simp only [networkChanges, ha]
      rw [ih hept]
      rfl

/-- The crashed-processes loop emits nothing when every before key
survives into the after map. -/
theorem crashedChanges_sub (bp ap : List (String × ProcInfo))
    (h : ∀ n ∈ keysOf bp, n ∈ keysOf ap) : crashedChanges bp ap = [] := by
  unfold crashedChanges
  apply List.filterMap_eq_nil_iff.mpr
  intro n hn
  exact if_pos (contains_true_of_mem _ n (h n hn))

/-- The started-processes loop emits nothing when every after key was
already present in the before map. -/
theorem startedChanges_sub (bp ap : List (String × ProcInfo))
    (h : ∀ n ∈ keysOf ap, n ∈ keysOf bp) : startedChanges bp ap = [] := by
  unfold startedChanges
  apply List.filterMap_eq_nil_iff.mpr
  intro n hn
  exact if_pos (contains_true_of_mem _ n (h n hn))

/-- A filterMap over a duplicate-free list whose function hits exactly
one element produces exactly that one image. -/
theorem filterMap_eq_singleton_of {γ : Type} (l : List String)
    (f : String → Option γ) (r : String) (ev : γ) (hnd : l.Nodup) (hr : r ∈ l)
    (hfr : f r = some ev) (hfn : ∀ n ∈ l, n ≠ r → f n = none) :
    l.filterMap f = [ev] := by
  induction l with
  | nil => cases hr
  | cons a t ih =>
    rw [List.nodup_cons] at hnd
    rcases List.mem_cons.mp hr with heq | hrt
    · subst heq
      have ht : t.filterMap f = [] :=
        List.filterMap_eq_nil_iff.mpr
          (fun n hn => hfn n (List.mem_cons_of_mem _ hn) (fun hx => hnd.1 (hx ▸ hn)))
      simp [List.filterMap_cons, hfr, ht]
    · have hane : a ≠ r := fun hx => hnd.1 (hx ▸ hrt)
      have ha : f a = none := hfn a (List.mem_cons_self _ _) hane
      rw [List.filterMap_cons, ha]
      exact ih hnd.2 hrt (fun n hn hnr => hfn n (List.mem_cons_of_mem _ hn) hnr)

/-- C5: two snapshots identical in process map, network map (with the
distinct keys a JavaScript object guarantees) and readiness level diff
to the empty event list; in particular diff of a snapshot against an
identical copy is empty. -/
theorem detectStateChanges_no_change (before after : Snapshot)
    (hp : before.processes = after.processes)
    (hn : before.network = after.network)
    (hnd : (keysOf (before.network.getD [])).Nodup)
    (hr : before.readiness.map Readiness.level = after.readiness.map Readiness.level) :
    detectStateChanges before after = some [] := by
  have hc : crashedChanges (after.processes.getD []) (after.processes.getD []) = [] :=
    crashedChanges_sub _ _ (fun n hn2 => hn2)
  have hs : startedChanges (after.processes.getD []) (after.processes.getD []) = [] :=
    startedChanges_sub _ _ (fun n hn2 => hn2)
  simp only [detectStateChanges, hp, ← hn, hc, hs]
  cases hbr : before.readiness with
  | none =>
    cases har : after.readiness with
    | none =>
      cases hbn : before.network with
      | none => rfl
      | some m =>
        dsimp only
        rw [networkChanges_self m m (fun p hp2 =>
          lookup_self_of_nodup m p.1 p.2 (by rw [hbn] at hnd; exact hnd)
            (by simpa using hp2))]
        rfl
    | some r2 =>
      rw [hbr, har] at hr
      simp at hr
  | some r1 =>
    cases har : after.readiness with
    | none =>
      rw [hbr, har] at hr
      simp at hr
    | some r2 =>
      rw [hbr, har] at hr
      have hlev : r1.level = r2.level := by simpa using hr
      cases hbn : before.network with
      | none => simp [hlev]
      | some m =>
        dsimp only
        rw [networkChanges_self m m (fun p hp2 =>
          lookup_self_of_nodup m p.1 p.2 (by rw [hbn] at hnd; exact hnd)
            (by simpa using hp2))]
        simp [hlev]

/-- C5 witness: two snapshots equal except for the timestamp diff to no
events. -/
theorem detectStateChanges_no_change_witness :
    detectStateChanges
      { timestamp := 0,
        processes := some [("vite", { pid := some "1", status := "running", type := "vite-dev" })],
        network := some [("vite", { port := 5173, status := "200", healthy := true, framework := "vite" })],
        readiness := some { score := 100, level := "ready", issues := [], critical := [] } }
      { timestamp := 5000,
        processes := some [("vite", { pid := some "1", status := "running", type := "vite-dev" })],
        network := some [("vite", { port := 5173, status := "200", healthy := true, framework := "vite" })],
        readiness := some { score := 100, level := "ready", issues := [], critical := [] } } =
      some [] :=
  detectStateChanges_no_change _ _ rfl rfl (by decide) rfl

/-- C6: when the current snapshot differs from the previous one only by
the deletion of one process role, the diff is exactly one
process:crashed event for that role carrying its last known pid. -/
theorem detectStateChanges_single_crash (before after : Snapshot)
    (bp : List (String × ProcInfo)) (r : String) (info : ProcInfo)
    (hbp : before.processes = some bp)
    (hap : after.processes = some (mapDelete bp r))
    (hndp : (keysOf bp).Nodup)
    (hrk : r ∈ keysOf bp)
    (hinfo : List.lookup r bp = some info)
    (hn : before.network = after.network)
    (hndn : (keysOf (before.network.getD [])).Nodup)
    (hr : before.readiness.map Readiness.level = after.readiness.map Readiness.level) :
    detectStateChanges before after = some [StateChange.processCrashed r info.pid] := by
  have hc : crashedChanges bp (mapDelete bp r) = [StateChange.processCrashed r info.pid] := by
    unfold crashedChanges
    apply filterMap_eq_singleton_of (keysOf bp) _ r _ hndp hrk
    · rw [if_neg, hinfo]
      · rfl
      · rw [contains_false_of_not_mem _ r (not_mem_keys_mapDelete bp r)]
        exact Bool.noConfusion
    · intro n hnk hne
      apply if_pos
      apply contains_true_of_mem
      rw [keysOf, List.mem_map] at hnk
      obtain ⟨p, hpm, hpk⟩ := hnk
      have hkeep : p ∈ mapDelete bp r := by
        rw [mapDelete, List.mem_filter]
        refine ⟨hpm, ?_⟩
        simp only [bne_iff_ne, Ne]
        rw [hpk]
        exact hne
      exact List.mem_map.mpr ⟨p, hkeep, hpk⟩
  have hs : startedChanges bp (mapDelete bp r) = [] := by
    apply startedChanges_sub
    intro n hnk
    rw [keysOf, List.mem_map] at hnk
    obtain ⟨p, hpm, hpk⟩ := hnk
    rw [mapDelete, List.mem_filter] at hpm
    exact List.mem_map.mpr ⟨p, hpm.1, hpk⟩
  simp only [detectStateChanges, hbp, hap, ← hn, Option.getD_some, hc, hs]
  cases hbr : before.readiness with
  | none =>
    cases har : after.readiness with
    | none =>
      cases hbn : before.network with
      | none => rfl
      | some m =>
        dsimp only
        rw [networkChanges_self m m (fun p hp2 =>
          lookup_self_of_nodup m p.1 p.2 (by rw [hbn] at hndn; exact hndn)
            (by simpa using hp2))]
        rfl
    | some r2 =>
      rw [hbr, har] at hr
      simp at hr
  | some r1 =>
    cases har : after.readiness with
    | none =>
      rw [hbr, har] at hr
      simp at hr
    | some r2 =>
      rw [hbr, har] at hr
      have hlev : r1.level = r2.level := by simpa using hr
      cases hbn : before.network with
      | none => simp [hlev]
      | some m =>
        dsimp only
        rw [networkChanges_self m m (fun p hp2 =>
          lookup_self_of_nodup m p.1 p.2 (by rw [hbn] at hndn; exact hndn)
            (by simpa using hp2))]
        simp [hlev]

/-- C6 witness: of two roles vite and convex, vite disappears; the diff
is the single crash event with the stored pid. -/
theorem detectStateChanges_single_crash_witness :
    detectStateChanges
      { timestamp := 0,
        processes := some
          [("vite", { pid := some "1", status := "running", type := "vite-dev" }),
           ("convex", { pid := some "2", status := "running", type := "local" })],
        network := some [],
        readiness := some { score := 70, level := "partial", issues := [], critical := [] } }
      { timestamp := 5000,
        processes := some
          [("convex", { pid := some "2", status := "running", type := "local" })],
        network := some [],
        readiness := some { score := 70, level := "partial", issues := [], critical := [] } } =
      some [StateChange.processCrashed "vite" (some "1")] :=
  detectStateChanges_single_crash _ _
    [("vite", { pid := some "1", status := "running", type := "vite-dev" }),
     ("convex", { pid := some "2", status := "running", type := "local" })]
    "vite" { pid := some "1", status := "running", type := "vite-dev" }
    rfl (by decide) (by decide) (by decide) (by decide) rfl (by decide) rfl

/-- C7 counterexample: an endpoint present in the previous network map
and absent from the current one makes detectStateChanges dereference an
absent entry and throw (none) — the diff does not merely skip the
endpoint, refuting the claim it cannot fail there. -/
theorem detectStateChanges_missing_endpoint_counterexample :
    detectStateChanges
      { timestamp := 0, processes := some [],
        network := some [("vite", { port := 5173, status := "200", healthy := true, framework := "vite" })],
        readiness := none }
      { timestamp := 5000, processes := some [], network := some [], readiness := none } =
      none := by decide

/-- C7 amended: whenever both snapshots carry a network map and some
endpoint of the previous map is absent from the current one, the diff
fails (throws, modelled as none) instead of skipping the endpoint. -/
theorem detectStateChanges_missing_endpoint_fails (before after : Snapshot)
    (m1 m2 : List (String × NetInfo)) (e : String)
    (h1 : before.network = some m1) (h2 : after.network = some m2)
    (he : e ∈ keysOf m1) (hne : e ∉ keysOf m2) :
    detectStateChanges before after = none := by
  have hlk : List.lookup e m2 = none := lookup_eq_none_of_not_mem_keys m2 e hne
  have hnc : networkChanges m1 m2 = none := networkChanges_missing m1 m2 e he hlk
  simp only [detectStateChanges, h1, h2, hnc]
  rfl

/-- C7 amended witness: concrete snapshots with the convex endpoint
dropped from the current map. -/
theorem detectStateChanges_missing_endpoint_fails_witness :
    detectStateChanges
      { timestamp := 0, processes := some [],
        network := some
          [("vite", { port := 5173, status := "200", healthy := true, framework := "vite" }),
           ("convex", { port := 3210, status := "offline", healthy := false, framework := "convex" })],
        readiness := none }
      { timestamp := 5000, processes := some [],
        network := some [("vite", { port := 5173, status := "200", healthy := true, framework := "vite" })],
        readiness := none } =
      none :=
  detectStateChanges_missing_endpoint_fails _ _
    [("vite", { port := 5173, status := "200", healthy := true, framework := "vite" }),
     ("convex", { port := 3210, status := "offline", healthy := false, framework := "convex" })]
    [("vite", { port := 5173, status := "200", healthy := true, framework := "vite" })]
    "convex" rfl rfl (by decide) (by decide)

/-- C9: a start request while a session is already active returns the
already-monitoring error and leaves the engine state — monitoring flag,
log watchers, process monitor, baseline — exactly as it was. -/
theorem startMonitoring_already_active (s : EngineState) (opts : MonitorOptions)
    (scanResult : Snapshot) (h : s.monitoring = true) :
    startMonitoring s opts scanResult = (s, some "Monitoring already active") := by
  simp [startMonitoring, h]

/-- C9 witness: a concrete active engine rejects a second start
unchanged. -/
theorem startMonitoring_already_active_witness :
    startMonitoring
      { monitoring := true, logWatchers := ["dev-server", "build", "test", "convex"],
        processMonitor := some 5000, lastKnownState := none }
      {} { timestamp := 0 } =
      ({ monitoring := true, logWatchers := ["dev-server", "build", "test", "convex"],
         processMonitor := some 5000, lastKnownState := none },
       some "Monitoring already active") :=
  startMonitoring_already_active _ _ _ rfl

/-- C10: canStart is true exactly when the process scan yields the
empty map, and the scan yields the empty map whenever the underlying
ps command fails (none), so a failed probe reports it is safe to start
and is indistinguishable from no dev processes running. -/
theorem canStart_iff_empty (execResult : Option String) :
    (canStart execResult = true ↔ scanProcesses execResult = []) ∧
    scanProcesses none = [] ∧ canStart none = true := by
  refine ⟨?_, rfl, rfl⟩
  unfold canStart keysOf
  constructor
  · intro h
    cases hsc : scanProcesses execResult with
    | nil => rfl
    | cons a t =>
      rw [hsc] at h
      simp at h
  · intro h
    rw [h]
    rfl

end ClaudeAuto
